import Mathlib

/-!
Verification of the progress-tracking and trend-aggregation pipeline of the
animal-sounds learning application (source: src/final1.py).

The embedding below translates the persistence layer (ensure_results_file,
save_to_csv, load_results), the attempt-recording branch of animal_page, the
recognize_speech wrapper and the aggregation part of dashboard_page into pure
Lean functions.  External library calls (pandas CSV round-trips, pandas
to_period bucketing, the speech recognizer) are modelled by their observable
behaviour at the call site, as used by the program.
-/

namespace TestMyStream

/-- Model of Python str.lower as applied by the program: character-wise
lowercasing (recognize_speech line 54, and selected_animal_name.lower()
at line 106 of final1.py). -/
def pyLower (s : String) : String :=
  ⟨s.data.map Char.toLower⟩

/-- One row of results.csv, as built at lines 114-123 of final1.py.
`timestamp` is epoch seconds (datetime.now().timestamp()); `date` is the
calendar date derived from the same clock reading, represented as the day
number since 1970-01-01. -/
structure AttemptRecord where
  child_id : Nat
  animal_name : String
  category : String
  attempt : Nat
  correct : Nat
  incorrect : Nat
  timestamp : Nat
  date : Nat
deriving DecidableEq, Repr

/-- Calendar date (day number since the epoch) of an epoch-seconds timestamp:
model of datetime.now().date() relative to datetime.now().timestamp(). -/
def calendar_date (ts : Nat) : Nat :=
  ts / 86400

/-- Header row written by ensure_results_file (line 16 of final1.py). -/
def results_header : List String :=
  ["child_id", "animal_name", "category", "attempt", "correct", "incorrect", "timestamp", "date"]

/-- State of the results.csv file: absent, or present and parseable with a
header and a list of rows, or present but unparseable by pd.read_csv. -/
inductive FileState
  | absent
  | wellFormed (header : List String) (rows : List AttemptRecord)
  | malformed
deriving DecidableEq, Repr

/-- Errors raised by the modelled pandas calls: `corruption` stands for the
parse error pd.read_csv raises on a malformed file, `missing` for the
FileNotFoundError on an absent file.  Neither is caught by save_to_csv or
load_results, so they propagate to the caller. -/
inductive StorageError
  | corruption
  | missing
deriving DecidableEq, Repr

/-- ensure_results_file (lines 14-16 of final1.py): create the file with the
fixed header and zero rows when it does not exist, otherwise do nothing. -/
def ensure_results_file : FileState → FileState
  | .absent => .wellFormed results_header []
  | fs => fs

/-- Model of pd.read_csv on the results file: the parsed rows, or an error
on a malformed or absent file. -/
def read_csv : FileState → Except StorageError (List AttemptRecord)
  | .wellFormed _ rows => .ok rows
  | .malformed => .error .corruption
  | .absent => .error .missing

/-- Header of a present file (used when rewriting; in every state the program
reaches this is `results_header`). -/
def header_of : FileState → List String
  | .wellFormed h _ => h
  | _ => results_header

/-- save_to_csv (lines 59-64 of final1.py): ensure the file exists, read the
full current contents, append the new record as the last row, rewrite the
full table.  A read error propagates and nothing is written. -/
def save_to_csv (record : AttemptRecord) (fs : FileState) : Except StorageError FileState :=
  let fs' := ensure_results_file fs
  (read_csv fs').map (fun df => .wellFormed (header_of fs') (df ++ [record]))

/-- load_results (lines 66-69 of final1.py): ensure the file exists, then
read and return every row in file order. -/
def load_results (fs : FileState) : Except StorageError (List AttemptRecord) :=
  read_csv (ensure_results_file fs)

/-- Outcome of the external speech-recognition collaborator for one attempt:
text was decoded, or the audio was unintelligible (sr.UnknownValueError), or
the recognition service was unreachable (sr.RequestError). -/
inductive RecognitionResult
  | recognized (raw : String)
  | unintelligible
  | serviceUnavailable
deriving DecidableEq, Repr

/-- Messages the interaction shows the user (st.error / st.success calls in
recognize_speech and animal_page). -/
inductive UiMessage
  | recognitionFailed
  | correctFeedback (name : String)
  | incorrectFeedback (said : String)
deriving DecidableEq, Repr

/-- recognize_speech (lines 47-57 of final1.py): on success return the
recognized text lowercased; on either failure kind show the error message
and return None. -/
def recognize_speech : RecognitionResult → Option String × List UiMessage
  | .recognized raw => (some (pyLower raw), [])
  | .unintelligible => (none, [.recognitionFailed])
  | .serviceUnavailable => (none, [.recognitionFailed])

/-- Record construction at lines 114-123 of final1.py, given the already
lowercased recognized text.  is_correct compares it with the lowercased
animal name (line 106); correct and incorrect are its indicator and
complement; timestamp and date come from the clock reading `now_ts`. -/
def make_record (child_id : Nat) (animal_name category recognized_text : String)
    (now_ts : Nat) : AttemptRecord :=
  let is_correct := recognized_text == pyLower animal_name
  { child_id := child_id
    animal_name := animal_name
    category := category
    attempt := 1
    correct := if is_correct then 1 else 0
    incorrect := if is_correct then 0 else 1
    timestamp := now_ts
    date := calendar_date now_ts }

/-- The recordAttempt operation of the spec, as realised by the program: the
raw recognizer output is lowercased by recognize_speech (line 54) before the
record is built at lines 114-123. -/
def recordAttempt (child_id : Nat) (animal_name category raw_recognized : String)
    (now_ts : Nat) : AttemptRecord :=
  make_record child_id animal_name category (pyLower raw_recognized) now_ts

/-- The recording branch of animal_page (lines 103-124 of final1.py): run
recognition; on failure (or on an empty recognized text, which Python treats
as falsy) end the interaction with the store untouched; otherwise show
feedback, build the record and persist it with save_to_csv. -/
def try_saying (child_id : Nat) (animal_name category : String)
    (recog : RecognitionResult) (now_ts : Nat) (fs : FileState) :
    Except StorageError FileState × List UiMessage :=
  match recognize_speech recog with
  | (none, msgs) => (.ok fs, msgs)
  | (some recognized_text, msgs) =>
    if recognized_text.isEmpty then (.ok fs, msgs)
    else
      let is_correct := recognized_text == pyLower animal_name
      let feedback : UiMessage :=
        if is_correct then .correctFeedback animal_name
        else .incorrectFeedback recognized_text
      (save_to_csv (make_record child_id animal_name category recognized_text now_ts) fs,
       msgs ++ [feedback])

/-- Numerator of the year-of-era computation of the civil-calendar
conversion: counts `x` minus the leap days accumulated below day `x` of
the 400-year era. -/
def ynum (x : Nat) : Nat := x - x / 1460 + x / 36524 - x / 146096

/-- First day (day of era) of year `yoe` of a 400-year era; years run March
to February as usual for the civil-calendar conversion. -/
def year_start (yoe : Nat) : Nat := 365 * yoe + yoe / 4 - yoe / 100

/-- Year of era containing a day of era. -/
def yoe_of_doe (doe : Nat) : Nat := ynum doe / 365

/-- Day of year (March-based) of a day of era. -/
def doy_of_doe (doe : Nat) : Nat := doe - year_start (yoe_of_doe doe)

/-- March-based month index (0 = March, ..., 11 = February) of a day of
era. -/
def mp_of_doe (doe : Nat) : Nat := (5 * doy_of_doe doe + 2) / 153

/-- Day of month of a day of era. -/
def dom_of_doe (doe : Nat) : Nat := doy_of_doe doe - (153 * mp_of_doe doe + 2) / 5 + 1

/-- Calendar month (1..12) of a day of era. -/
def m_of_doe (doe : Nat) : Nat :=
  if mp_of_doe doe < 10 then mp_of_doe doe + 3 else mp_of_doe doe - 9

/-- Day of era of the first day of the month containing a day of era. -/
def msdoe (doe : Nat) : Nat :=
  year_start (yoe_of_doe doe) + (153 * mp_of_doe doe + 2) / 5

/-- Civil-calendar conversion: year, month and day of month of a day number
counted from 1970-01-01 (proleptic Gregorian calendar). -/
def civilFromDays (z : Nat) : Nat × Nat × Nat :=
  let era := (z + 719468) / 146097
  let doe := (z + 719468) % 146097
  (if m_of_doe doe ≤ 2 then era * 400 + yoe_of_doe doe + 1 else era * 400 + yoe_of_doe doe,
   m_of_doe doe, dom_of_doe doe)

/-- Inverse civil-calendar conversion: day number since 1970-01-01 of a
given year, month and day of month (proleptic Gregorian calendar). -/
def daysFromCivil (y m d : Nat) : Nat :=
  let y' := if m ≤ 2 then y - 1 else y
  let era := y' / 400
  let yoe := y' % 400
  let mp := if 2 < m then m - 3 else m + 9
  let doy := (153 * mp + 2) / 5 + d - 1
  era * 146097 + (year_start yoe + doy) - 719468

/-- Year of a day number. -/
def year_of (z : Nat) : Nat := (civilFromDays z).1

/-- Month of a day number. -/
def month_of (z : Nat) : Nat := (civilFromDays z).2.1

/-- Day of month of a day number. -/
def dom_of (z : Nat) : Nat := (civilFromDays z).2.2

/-- Day of week of a day number, with 0 = Sunday, 1 = Monday, ...;
day 0 (1970-01-01) is a Thursday. -/
def day_of_week (z : Nat) : Nat := (z + 4) % 7

/-- First day of the calendar month containing a day number: model of the
pandas expression to_period(M).start_time at line 146 of final1.py. -/
def month_start (z : Nat) : Nat :=
  daysFromCivil (year_of z) (month_of z) 1

/-- First day (Monday) of the week containing a day number: model of the
pandas expression to_period(W).start_time at line 144 of final1.py
(pandas default W period is W-SUN, i.e. the week runs Monday to Sunday). -/
def week_start (z : Nat) : Nat :=
  z - (z + 3) % 7

/-- The three values of the View Progress By radio control (line 134). -/
inductive Granularity
  | daily
  | weekly
  | monthly
deriving DecidableEq, Repr

/-- Bucket key assigned to a record date by dashboard_page lines 141-146:
the date itself, the start of its week, or the start of its month. -/
def time_period (g : Granularity) (z : Nat) : Nat :=
  match g with
  | .daily => z
  | .weekly => week_start z
  | .monthly => month_start z

/-- One row of the trend_data frame produced at line 148 of final1.py. -/
structure TrendRow where
  time_period : Nat
  attempt : Nat
  correct : Nat
  incorrect : Nat
deriving DecidableEq, Repr

/-- Merge one record (whose bucket key is `k`) into a key-sorted list of
group rows, keeping the list sorted by key and summing the three count
columns on key collision. -/
def add_to_groups (k : Nat) (r : AttemptRecord) : List TrendRow → List TrendRow
  | [] => [⟨k, r.attempt, r.correct, r.incorrect⟩]
  | row :: rest =>
    if k < row.time_period then
      ⟨k, r.attempt, r.correct, r.incorrect⟩ :: row :: rest
    else if k = row.time_period then
      ⟨row.time_period, row.attempt + r.attempt, row.correct + r.correct,
        row.incorrect + r.incorrect⟩ :: rest
    else
      row :: add_to_groups k r rest

/-- Model of the pandas groupby at line 148 of final1.py:
df.groupby(time_period)[[attempt, correct, incorrect]].sum(), which emits one
row per distinct key, sorted ascending by key, with the columns summed. -/
def groupby_sum (g : Granularity) (df : List AttemptRecord) : List TrendRow :=
  df.foldl (fun acc r => add_to_groups (time_period g r.date) r acc) []

/-- Category filter of dashboard_page lines 138-139: keep all rows when the
selection is the sentinel All, otherwise keep exactly the rows whose
category equals the selection (Python string equality: case-sensitive). -/
def apply_filter (selected_category : String) (df : List AttemptRecord) : List AttemptRecord :=
  if selected_category = "All" then df
  else df.filter (fun r => r.category == selected_category)

/-- Sum of the attempt column (line 150 of final1.py). -/
def total_attempts (df : List AttemptRecord) : Nat :=
  (df.map (fun r => r.attempt)).sum

/-- Sum of the correct column (line 151 of final1.py). -/
def total_correct (df : List AttemptRecord) : Nat :=
  (df.map (fun r => r.correct)).sum

/-- Sum of the incorrect column (line 152 of final1.py). -/
def total_incorrect (df : List AttemptRecord) : Nat :=
  (df.map (fun r => r.incorrect)).sum

/-- Data computed by dashboard_page (lines 126-158 of final1.py) from the
loaded records, the granularity radio and the category selectbox: the trend
rows and the three overall statistics, all computed on the filtered frame. -/
structure DashboardData where
  trend_data : List TrendRow
  total_attempts : Nat
  total_correct : Nat
  total_incorrect : Nat
deriving DecidableEq, Repr

/-- The aggregation pipeline of dashboard_page: filter by category, bucket by
time_period, sum per bucket, and compute the global totals on the filtered
frame.  (When the loaded frame is empty the page returns early after a
warning; the pipeline below then yields no buckets and zero totals.) -/
def dashboard_data (time_filter : Granularity) (selected_category : String)
    (df : List AttemptRecord) : DashboardData :=
  let fdf := apply_filter selected_category df
  { trend_data := groupby_sum time_filter fdf
    total_attempts := total_attempts fdf
    total_correct := total_correct fdf
    total_incorrect := total_incorrect fdf }

/-- Model of pandas Series.unique (line 135 of final1.py): the distinct
values in order of first appearance. -/
def pd_unique (l : List String) : List String :=
  l.foldl (fun acc x => if x ∈ acc then acc else acc ++ [x]) []

/-- Options of the Select Category selectbox (lines 135-136 of final1.py):
the sentinel All followed by the distinct categories present in the data. -/
def filter_options (df : List AttemptRecord) : List String :=
  "All" :: pd_unique (df.map (fun r => r.category))

/-- Category strings the animal pages are invoked with (lines 174-176 of
final1.py): the page table passes these lowercase strings, not the
title-case labels of the home-page buttons. -/
def page_categories : List String :=
  ["farm animal", "sea creature", "bird", "wild animal", "jungle animal"]

/-- Append a list of records one save_to_csv call at a time, in order;
model of a sequence of recordAttempt interactions hitting the store. -/
def saveAll (records : List AttemptRecord) (fs : FileState) : Except StorageError FileState :=
  records.foldlM (fun s r => save_to_csv r s) fs

/-- Sum of the attempt column of a trend frame. -/
def trend_attempt_sum (rows : List TrendRow) : Nat :=
  (rows.map (fun b => b.attempt)).sum

/-- Sum of the correct column of a trend frame. -/
def trend_correct_sum (rows : List TrendRow) : Nat :=
  (rows.map (fun b => b.correct)).sum

/-- Sum of the incorrect column of a trend frame. -/
def trend_incorrect_sum (rows : List TrendRow) : Nat :=
  (rows.map (fun b => b.incorrect)).sum

/-- Rows visible in a file state (empty for an absent or malformed file). -/
def rows_of : FileState → List AttemptRecord
  | .wellFormed _ rows => rows
  | _ => []

/-- Bounded checker for the per-year facts of the civil-calendar
conversion: the year-of-era formula is exact at each year boundary. -/
def year_ok (yoe : Nat) : Bool :=
  Nat.ble (365 * yoe) (ynum (year_start yoe))
  && (Nat.beq yoe 0 || Nat.ble (ynum (year_start yoe - 1) + 1) (365 * yoe))
  && Nat.ble (365 * yoe + 365) (ynum (year_start yoe + 366))

/-- Conjunction of year_ok over all years of era below `n`. -/
def check_years : Nat → Bool
  | 0 => true
  | n + 1 => year_ok n && check_years n

theorem ynum_step (x : Nat) (h : x < 146097) : ynum x ≤ ynum (x + 1) := by
  unfold ynum
  omega

theorem ynum_mono (a b : Nat) (hb : b ≤ 146097) (hab : a ≤ b) : ynum a ≤ ynum b := by
  induction b with
  | zero => simp_all
  | succ n ih =>
    rcases Nat.lt_or_ge a (n + 1) with h | h
    · exact le_trans (ih (by omega) (by omega)) (ynum_step n (by omega))
    · have : a = n + 1 := by omega
      simp [this]

set_option maxRecDepth 8000 in
theorem check_years_ok : check_years 400 = true := by decide

theorem check_years_sound (n : Nat) (h : check_years n = true) :
    ∀ y, y < n → year_ok y = true := by
  induction n with
  | zero => intro y hy; omega
  | succ m ih =>
    intro y hy
    rw [check_years, Bool.and_eq_true] at h
    rcases Nat.lt_or_ge y m with h' | h'
    · exact ih h.2 y h'
    · have : y = m := by omega
      rw [this]; exact h.1

theorem year_facts (yoe : Nat) (h : yoe ≤ 399) :
    365 * yoe ≤ ynum (year_start yoe)
    ∧ (1 ≤ yoe → ynum (year_start yoe - 1) < 365 * yoe)
    ∧ 365 * yoe + 365 ≤ ynum (year_start yoe + 366) := by
  have hy := check_years_sound 400 check_years_ok yoe (by omega)
  rw [year_ok, Bool.and_eq_true, Bool.and_eq_true, Bool.or_eq_true] at hy
  obtain ⟨⟨h1, h2⟩, h3⟩ := hy
  refine ⟨Nat.le_of_ble_eq_true h1, ?_, Nat.le_of_ble_eq_true h3⟩
  intro hge
  rcases h2 with h2 | h2
  · have := Nat.eq_of_beq_eq_true h2; omega
  · have := Nat.le_of_ble_eq_true h2
    omega

theorem ynum_146096 : ynum 146096 = 145999 := by decide

theorem ynum_135080 : ynum 135080 = 134991 := by decide

theorem hinnant_facts (doe yoe doy mp dom ms : Nat) (hdoe : doe ≤ 146096)
    (hyoe : yoe = ynum doe / 365) (hdoy : doy = doe - year_start yoe)
    (hmp : mp = (5 * doy + 2) / 153) (hdom : dom = doy - (153 * mp + 2) / 5 + 1)
    (hms : ms = year_start yoe + (153 * mp + 2) / 5) :
    year_start yoe ≤ doe ∧ doy ≤ 365 ∧ mp ≤ 11 ∧ yoe ≤ 399
    ∧ ms ≤ doe ∧ ms + dom = doe + 1
    ∧ ynum ms / 365 = yoe
    ∧ (5 * (ms - year_start yoe) + 2) / 153 = mp
    ∧ ms - year_start yoe - (153 * mp + 2) / 5 + 1 = 1
    ∧ (135080 ≤ doe → 135080 ≤ ms) := by
  have hm1 : ynum doe ≤ ynum 146096 := ynum_mono doe 146096 (by omega) hdoe
  rw [ynum_146096] at hm1
  have hy399 : yoe ≤ 399 := by omega
  obtain ⟨y1, y2, y3⟩ := year_facts yoe hy399
  have hysbound : year_start yoe ≤ 145734 := by unfold year_start; omega
  have hf1 : year_start yoe ≤ doe := by
    by_contra hlt
    have hyoe1 : 1 ≤ yoe := by unfold year_start at hlt; omega
    have := ynum_mono doe (year_start yoe - 1) (by omega) (by omega)
    have := y2 hyoe1
    omega
  have hf2 : doy ≤ 365 := by
    by_contra hgt
    have : year_start yoe + 366 ≤ doe := by omega
    have := ynum_mono (year_start yoe + 366) doe (by omega) this
    omega
  have hf3 : mp ≤ 11 := by omega
  have hf4 : (153 * mp + 2) / 5 ≤ doy := by omega
  have hf5 : ms ≤ doe := by omega
  have hf6 : ms + dom = doe + 1 := by omega
  have hf7 : ynum ms / 365 = yoe := by
    have hys_ms : year_start yoe ≤ ms := by omega
    have h1 := ynum_mono (year_start yoe) ms (by omega) hys_ms
    have h2 := ynum_mono ms doe (by omega) hf5
    omega
  have hf8 : (5 * (ms - year_start yoe) + 2) / 153 = mp := by omega
  have hf9 : ms - year_start yoe - (153 * mp + 2) / 5 + 1 = 1 := by omega
  have hf11 : 135080 ≤ doe → 135080 ≤ ms := by
    intro h135
    have := ynum_mono 135080 doe (by omega) h135
    rw [ynum_135080] at this
    have hy369 : 369 ≤ yoe := by omega
    rcases Nat.lt_or_ge yoe 370 with hc | hc
    · have hyoe_eq : yoe = 369 := by omega
      subst hyoe_eq
      unfold year_start at hms hdoy hf1
      omega
    · have : 135139 ≤ year_start yoe := by unfold year_start; omega
      omega
  exact ⟨hf1, hf2, hf3, hy399, hf5, hf6, hf7, hf8, hf9, hf11⟩

theorem doe_facts (doe : Nat) (h : doe ≤ 146096) :
    year_start (yoe_of_doe doe) ≤ doe ∧ doy_of_doe doe ≤ 365 ∧ mp_of_doe doe ≤ 11
    ∧ yoe_of_doe doe ≤ 399
    ∧ msdoe doe ≤ doe ∧ msdoe doe + dom_of_doe doe = doe + 1
    ∧ yoe_of_doe (msdoe doe) = yoe_of_doe doe
    ∧ mp_of_doe (msdoe doe) = mp_of_doe doe
    ∧ dom_of_doe (msdoe doe) = 1
    ∧ (135080 ≤ doe → 135080 ≤ msdoe doe) := by
  obtain ⟨f1, f2, f3, f4, f5, f6, f7, f8, f9, f11⟩ :=
    hinnant_facts doe (yoe_of_doe doe) (doy_of_doe doe) (mp_of_doe doe) (dom_of_doe doe)
      (msdoe doe) h rfl rfl rfl rfl rfl
  have hyoe2 : yoe_of_doe (msdoe doe) = yoe_of_doe doe := f7
  have hdoy2 : doy_of_doe (msdoe doe) = msdoe doe - year_start (yoe_of_doe doe) := by
    unfold doy_of_doe
    rw [hyoe2]
  have hmp2 : mp_of_doe (msdoe doe) = mp_of_doe doe := by
    unfold mp_of_doe
    rw [hdoy2]
    exact f8
  have hdom2 : dom_of_doe (msdoe doe) = 1 := by
    unfold dom_of_doe
    rw [hdoy2, hmp2]
    exact f9
  exact ⟨f1, f2, f3, f4, f5, f6, hyoe2, hmp2, hdom2, f11⟩

theorem civil_fst (z : Nat) :
    (civilFromDays z).1 =
      (if m_of_doe ((z + 719468) % 146097) ≤ 2 then
        ((z + 719468) / 146097) * 400 + yoe_of_doe ((z + 719468) % 146097) + 1
      else ((z + 719468) / 146097) * 400 + yoe_of_doe ((z + 719468) % 146097)) := rfl

theorem civil_snd (z : Nat) : (civilFromDays z).2.1 = m_of_doe ((z + 719468) % 146097) := rfl

theorem civil_thd (z : Nat) : (civilFromDays z).2.2 = dom_of_doe ((z + 719468) % 146097) := rfl

theorem m_of_doe_ms (doe : Nat) (h : doe ≤ 146096) :
    m_of_doe (msdoe doe) = m_of_doe doe := by
  obtain ⟨f1, f2, f3, f4, f5, f6, f7, f8, f9, f11⟩ := doe_facts doe h
  unfold m_of_doe
  rw [f8]

theorem month_start_eq (z : Nat) :
    month_start z =
      ((z + 719468) / 146097) * 146097 + msdoe ((z + 719468) % 146097) - 719468 := by
  obtain ⟨f1, f2, f3, f4, f5, f6, f7, f8, f9, f11⟩ :=
    doe_facts ((z + 719468) % 146097) (by omega)
  unfold month_start year_of month_of
  rw [civil_fst, civil_snd]
  rcases Nat.lt_or_ge (mp_of_doe ((z + 719468) % 146097)) 10 with hmp | hmp
  · have hm : m_of_doe ((z + 719468) % 146097) = mp_of_doe ((z + 719468) % 146097) + 3 := by
      unfold m_of_doe
      rw [if_pos hmp]
    rw [hm, if_neg (by omega)]
    rw [daysFromCivil]
    rw [if_neg (by omega : ¬ (mp_of_doe ((z + 719468) % 146097) + 3 ≤ 2)),
        if_pos (by omega : 2 < mp_of_doe ((z + 719468) % 146097) + 3)]
    have h400a : ((z + 719468) / 146097 * 400 + yoe_of_doe ((z + 719468) % 146097)) % 400
        = yoe_of_doe ((z + 719468) % 146097) := by omega
    have h400b : ((z + 719468) / 146097 * 400 + yoe_of_doe ((z + 719468) % 146097)) / 400
        = (z + 719468) / 146097 := by omega
    rw [h400a, h400b]
    unfold msdoe
    have hmp3 : mp_of_doe ((z + 719468) % 146097) + 3 - 3 = mp_of_doe ((z + 719468) % 146097) := by
      omega
    rw [hmp3]
    omega
  · have hm : m_of_doe ((z + 719468) % 146097) = mp_of_doe ((z + 719468) % 146097) - 9 := by
      unfold m_of_doe
      rw [if_neg (by omega)]
    rw [hm, if_pos (by omega)]
    rw [daysFromCivil]
    rw [if_pos (by omega : mp_of_doe ((z + 719468) % 146097) - 9 ≤ 2),
        if_neg (by omega : ¬ (2 < mp_of_doe ((z + 719468) % 146097) - 9))]
    have hsub : (z + 719468) / 146097 * 400 + yoe_of_doe ((z + 719468) % 146097) + 1 - 1
        = (z + 719468) / 146097 * 400 + yoe_of_doe ((z + 719468) % 146097) := by omega
    rw [hsub]
    have h400a : ((z + 719468) / 146097 * 400 + yoe_of_doe ((z + 719468) % 146097)) % 400
        = yoe_of_doe ((z + 719468) % 146097) := by omega
    have h400b : ((z + 719468) / 146097 * 400 + yoe_of_doe ((z + 719468) % 146097)) / 400
        = (z + 719468) / 146097 := by omega
    rw [h400a, h400b]
    have hmp9 : mp_of_doe ((z + 719468) % 146097) - 9 + 9 = mp_of_doe ((z + 719468) % 146097) := by
      omega
    rw [hmp9]
    unfold msdoe
    omega

theorem month_start_correct (z : Nat) :
    civilFromDays (month_start z) = (year_of z, month_of z, 1)
    ∧ month_start z + dom_of z = z + 1 := by
  obtain ⟨f1, f2, f3, f4, f5, f6, f7, f8, f9, f11⟩ :=
    doe_facts ((z + 719468) % 146097) (by omega)
  have hms := month_start_eq z
  have hdiv : (month_start z + 719468) / 146097 = (z + 719468) / 146097 := by
    omega
  have hmod : (month_start z + 719468) % 146097 = msdoe ((z + 719468) % 146097) := by
    omega
  constructor
  · unfold year_of month_of
    have e1 : civilFromDays (month_start z)
        = ((civilFromDays (month_start z)).1, (civilFromDays (month_start z)).2.1,
           (civilFromDays (month_start z)).2.2) := rfl
    rw [e1, civil_fst (month_start z), civil_snd (month_start z), civil_thd (month_start z),
        hdiv, hmod, f7, f9, m_of_doe_ms _ (by omega), civil_fst z, civil_snd z]
  · unfold dom_of
    rw [civil_thd]
    omega

theorem save_to_csv_wellFormed (r : AttemptRecord) (h : List String) (rows : List AttemptRecord) :
    save_to_csv r (.wellFormed h rows) = .ok (.wellFormed h (rows ++ [r])) := rfl

theorem saveAll_wellFormed (records : List AttemptRecord) :
    ∀ (h : List String) (rows : List AttemptRecord),
      saveAll records (.wellFormed h rows) = .ok (.wellFormed h (rows ++ records)) := by
  induction records with
  | nil =>
    intro h rows
    simp only [saveAll, List.foldlM, List.append_nil]
    rfl
  | cons r rest ih =>
    intro h rows
    have hstep : saveAll (r :: rest) (.wellFormed h rows)
        = saveAll rest (.wellFormed h (rows ++ [r])) := rfl
    rw [hstep, ih]
    simp

theorem add_to_groups_sums (k : Nat) (r : AttemptRecord) (rows : List TrendRow) :
    trend_attempt_sum (add_to_groups k r rows) = trend_attempt_sum rows + r.attempt
    ∧ trend_correct_sum (add_to_groups k r rows) = trend_correct_sum rows + r.correct
    ∧ trend_incorrect_sum (add_to_groups k r rows) = trend_incorrect_sum rows + r.incorrect := by
  induction rows with
  | nil =>
    simp [add_to_groups, trend_attempt_sum, trend_correct_sum, trend_incorrect_sum]
  | cons row rest ih =>
    rw [add_to_groups]
    split_ifs with h1 h2 <;>
      simp [trend_attempt_sum, trend_correct_sum, trend_incorrect_sum] at ih ⊢ <;>
      omega

theorem groupby_sum_totals (g : Granularity) (df : List AttemptRecord) :
    ∀ acc : List TrendRow,
      trend_attempt_sum (df.foldl (fun a r => add_to_groups (time_period g r.date) r a) acc)
        = trend_attempt_sum acc + total_attempts df
      ∧ trend_correct_sum (df.foldl (fun a r => add_to_groups (time_period g r.date) r a) acc)
        = trend_correct_sum acc + total_correct df
      ∧ trend_incorrect_sum (df.foldl (fun a r => add_to_groups (time_period g r.date) r a) acc)
        = trend_incorrect_sum acc + total_incorrect df := by
  induction df with
  | nil =>
    intro acc
    simp [total_attempts, total_correct, total_incorrect]
  | cons r rest ih =>
    intro acc
    have hfold : (r :: rest).foldl (fun a x => add_to_groups (time_period g x.date) x a) acc
        = rest.foldl (fun a x => add_to_groups (time_period g x.date) x a)
            (add_to_groups (time_period g r.date) r acc) := rfl
    rw [hfold]
    obtain ⟨i1, i2, i3⟩ := ih (add_to_groups (time_period g r.date) r acc)
    obtain ⟨a1, a2, a3⟩ := add_to_groups_sums (time_period g r.date) r acc
    refine ⟨?_, ?_, ?_⟩ <;>
      simp [i1, i2, i3, a1, a2, a3, total_attempts, total_correct, total_incorrect] <;>
      omega

theorem mem_add_to_groups (k : Nat) (r : AttemptRecord) (rows : List TrendRow)
    (x : TrendRow) (hx : x ∈ add_to_groups k r rows) :
    x.time_period = k ∨ ∃ y ∈ rows, x.time_period = y.time_period := by
  induction rows with
  | nil =>
    rw [add_to_groups] at hx
    simp at hx
    simp [hx]
  | cons row rest ih =>
    rw [add_to_groups] at hx
    split_ifs at hx with h1 h2
    · rcases List.mem_cons.mp hx with h | h
      · left; rw [h]
      · right; exact ⟨x, h, rfl⟩
    · rcases List.mem_cons.mp hx with h | h
      · right
        exact ⟨row, List.mem_cons_self row rest, by rw [h]⟩
      · right; exact ⟨x, List.mem_cons_of_mem row h, rfl⟩
    · rcases List.mem_cons.mp hx with h | h
      · right
        exact ⟨row, List.mem_cons_self row rest, by rw [h]⟩
      · rcases ih h with h' | ⟨y, hy, hy'⟩
        · left; exact h'
        · right; exact ⟨y, List.mem_cons_of_mem row hy, hy'⟩

theorem add_to_groups_pairwise (k : Nat) (r : AttemptRecord) (rows : List TrendRow)
    (h : List.Pairwise (fun a b => a.time_period < b.time_period) rows) :
    List.Pairwise (fun a b => a.time_period < b.time_period) (add_to_groups k r rows) := by
  induction rows with
  | nil =>
    rw [add_to_groups]
    simp
  | cons row rest ih =>
    rw [List.pairwise_cons] at h
    obtain ⟨hrow, hrest⟩ := h
    rw [add_to_groups]
    split_ifs with h1 h2
    · rw [List.pairwise_cons]
      refine ⟨?_, ?_⟩
      · intro y hy
        rcases List.mem_cons.mp hy with h' | h'
        · rw [h']; exact h1
        · exact lt_trans h1 (hrow y h')
      · rw [List.pairwise_cons]
        exact ⟨hrow, hrest⟩
    · rw [List.pairwise_cons]
      exact ⟨hrow, hrest⟩
    · rw [List.pairwise_cons]
      refine ⟨?_, ih hrest⟩
      intro y hy
      rcases mem_add_to_groups k r rest y hy with h' | ⟨w, hw, hw'⟩
      · rw [h']; omega
      · rw [hw']; exact hrow w hw

theorem groupby_sum_pairwise_aux (g : Granularity) (df : List AttemptRecord) :
    ∀ acc : List TrendRow,
      List.Pairwise (fun a b => a.time_period < b.time_period) acc →
      List.Pairwise (fun a b => a.time_period < b.time_period)
        (df.foldl (fun a r => add_to_groups (time_period g r.date) r a) acc) := by
  induction df with
  | nil => intro acc hacc; exact hacc
  | cons r rest ih =>
    intro acc hacc
    exact ih (add_to_groups (time_period g r.date) r acc)
      (add_to_groups_pairwise (time_period g r.date) r acc hacc)

theorem mem_pd_unique (l : List String) (c : String) (hc : c ∈ pd_unique l) : c ∈ l := by
  have aux : ∀ (l' : List String) (acc : List String),
      c ∈ l'.foldl (fun a x => if x ∈ a then a else a ++ [x]) acc → c ∈ acc ∨ c ∈ l' := by
    intro l'
    induction l' with
    | nil => intro acc h; left; exact h
    | cons x rest ih =>
      intro acc h
      have hstep : (x :: rest).foldl (fun a y => if y ∈ a then a else a ++ [y]) acc
          = rest.foldl (fun a y => if y ∈ a then a else a ++ [y])
              (if x ∈ acc then acc else acc ++ [x]) := rfl
      rw [hstep] at h
      rcases ih _ h with h' | h'
      · by_cases hmem : x ∈ acc
        · rw [if_pos hmem] at h'
          left; exact h'
        · rw [if_neg hmem] at h'
          rcases List.mem_append.mp h' with h'' | h''
          · left; exact h''
          · right
            simp at h''
            simp [h'']
      · right; exact List.mem_cons_of_mem x h'
  rcases aux l [] hc with h | h
  · simp at h
  · exact h

theorem groupby_sum_totals_final (g : Granularity) (df : List AttemptRecord) :
    trend_attempt_sum (groupby_sum g df) = total_attempts df
    ∧ trend_correct_sum (groupby_sum g df) = total_correct df
    ∧ trend_incorrect_sum (groupby_sum g df) = total_incorrect df := by
  obtain ⟨h1, h2, h3⟩ := groupby_sum_totals g df []
  unfold groupby_sum
  have e1 : trend_attempt_sum [] = 0 := rfl
  have e2 : trend_correct_sum [] = 0 := rfl
  have e3 : trend_incorrect_sum [] = 0 := rfl
  omega

/-- Claim C1: every record produced and persisted by recordAttempt has
attemptCount 1, correctCount 1 exactly when the case-folded recognized text
equals the case-folded animal name (case-folding only), incorrectCount the
complement, the two counts summing to the attempt count, and date equal to
the calendar date of its timestamp; the record is appended as produced.
In particular recognized "lion" against "Lion" is correct and "line" is
incorrect. -/
theorem claim_C1 (cid : Nat) (an cat raw : String) (ts : Nat)
    (hdr : List String) (rows : List AttemptRecord) :
    (recordAttempt cid an cat raw ts).attempt = 1
    ∧ (recordAttempt cid an cat raw ts).correct
        = (if pyLower raw = pyLower an then 1 else 0)
    ∧ (recordAttempt cid an cat raw ts).incorrect
        = 1 - (recordAttempt cid an cat raw ts).correct
    ∧ (recordAttempt cid an cat raw ts).correct
        + (recordAttempt cid an cat raw ts).incorrect = 1
    ∧ (recordAttempt cid an cat raw ts).date
        = calendar_date (recordAttempt cid an cat raw ts).timestamp
    ∧ (recordAttempt cid an cat raw ts).timestamp = ts
    ∧ save_to_csv (recordAttempt cid an cat raw ts) (.wellFormed hdr rows)
        = .ok (.wellFormed hdr (rows ++ [recordAttempt cid an cat raw ts]))
    ∧ (recordAttempt 1 "Lion" "Wild Animal" "lion" 0).correct = 1
    ∧ (recordAttempt 1 "Lion" "Wild Animal" "lion" 0).incorrect = 0
    ∧ (recordAttempt 1 "Lion" "Wild Animal" "line" 0).correct = 0
    ∧ (recordAttempt 1 "Lion" "Wild Animal" "line" 0).incorrect = 1 := by
  refine ⟨rfl, ?_, ?_, ?_, rfl, rfl, save_to_csv_wellFormed _ _ _,
    by decide, by decide, by decide, by decide⟩
  · by_cases hc : pyLower raw = pyLower an <;> simp [recordAttempt, make_record, hc]
  · by_cases hc : pyLower raw = pyLower an <;> simp [recordAttempt, make_record, hc]
  · by_cases hc : pyLower raw = pyLower an <;> simp [recordAttempt, make_record, hc]

/-- Claim C2: the store is append-only: a sequence of appends starting from
rows leaves those rows unchanged and adds exactly the new records in call
order; each single append rewrites the table with the new record last; a
load after the appends returns old rows then new records; loading an absent
or empty store yields the empty sequence, not an error. -/
theorem claim_C2 (hdr : List String) (rows records : List AttemptRecord) (r : AttemptRecord) :
    saveAll records (.wellFormed hdr rows) = .ok (.wellFormed hdr (rows ++ records))
    ∧ (saveAll records (.wellFormed hdr rows) >>= load_results) = .ok (rows ++ records)
    ∧ save_to_csv r (.wellFormed hdr rows) = .ok (.wellFormed hdr (rows ++ [r]))
    ∧ (saveAll records .absent >>= load_results) = .ok records
    ∧ load_results .absent = .ok ([] : List AttemptRecord)
    ∧ load_results (.wellFormed hdr []) = .ok ([] : List AttemptRecord) := by
  refine ⟨saveAll_wellFormed records hdr rows, ?_, save_to_csv_wellFormed r hdr rows, ?_, rfl, rfl⟩
  · rw [saveAll_wellFormed records hdr rows]
    rfl
  · cases records with
    | nil => rfl
    | cons q rest =>
      have hstep : saveAll (q :: rest) FileState.absent
          = saveAll rest (.wellFormed results_header [q]) := rfl
      rw [hstep, saveAll_wellFormed rest results_header [q]]
      rfl

/-- Claim C3: the bucket key of a record date is the date itself under Daily
granularity, the Monday starting the ISO week containing it under Weekly
granularity, and the first day of its calendar month under Monthly
granularity; the three-record weekly scenario over 2024-01-01, 2024-01-02
and 2024-01-08 yields exactly the two buckets of the claim. -/
theorem claim_C3 (d : Nat) (hd : 4 ≤ d) :
    time_period .daily d = d
    ∧ time_period .weekly d ≤ d
    ∧ d < time_period .weekly d + 7
    ∧ day_of_week (time_period .weekly d) = 1
    ∧ civilFromDays (time_period .monthly d) = (year_of d, month_of d, 1)
    ∧ time_period .monthly d + dom_of d = d + 1
    ∧ groupby_sum .weekly
        [ { child_id := 1, animal_name := "Lion", category := "wild animal", attempt := 1,
            correct := 1, incorrect := 0, timestamp := 0, date := daysFromCivil 2024 1 1 },
          { child_id := 1, animal_name := "Lion", category := "wild animal", attempt := 1,
            correct := 0, incorrect := 1, timestamp := 0, date := daysFromCivil 2024 1 2 },
          { child_id := 1, animal_name := "Lion", category := "wild animal", attempt := 1,
            correct := 1, incorrect := 0, timestamp := 0, date := daysFromCivil 2024 1 8 } ]
      = [ { time_period := daysFromCivil 2024 1 1, attempt := 2, correct := 1, incorrect := 1 },
          { time_period := daysFromCivil 2024 1 8, attempt := 1, correct := 1, incorrect := 0 } ] := by
  refine ⟨rfl, ?_, ?_, ?_, (month_start_correct d).1, (month_start_correct d).2, by decide⟩
  · show week_start d ≤ d
    unfold week_start
    omega
  · show d < week_start d + 7
    unfold week_start
    omega
  · show day_of_week (week_start d) = 1
    unfold day_of_week week_start
    omega

/-- Witness for claim C3 at d = 19723 (2024-01-01). -/
theorem claim_C3_witness : day_of_week (time_period .weekly 19723) = 1 :=
  (claim_C3 19723 (by decide)).2.2.2.1

/-- Claim C4: for any record set, granularity and category selection, the
bucket sums of the dashboard equal the column sums over the filtered
records, and the global totals shown alongside equal the same sums. -/
theorem claim_C4 (g : Granularity) (sel : String) (df : List AttemptRecord) :
    trend_attempt_sum (dashboard_data g sel df).trend_data
        = total_attempts (apply_filter sel df)
    ∧ trend_correct_sum (dashboard_data g sel df).trend_data
        = total_correct (apply_filter sel df)
    ∧ trend_incorrect_sum (dashboard_data g sel df).trend_data
        = total_incorrect (apply_filter sel df)
    ∧ (dashboard_data g sel df).total_attempts = total_attempts (apply_filter sel df)
    ∧ (dashboard_data g sel df).total_correct = total_correct (apply_filter sel df)
    ∧ (dashboard_data g sel df).total_incorrect = total_incorrect (apply_filter sel df) := by
  obtain ⟨h1, h2, h3⟩ := groupby_sum_totals_final g (apply_filter sel df)
  exact ⟨h1, h2, h3, rfl, rfl, rfl⟩

/-- Claim C5: with a selection other than the sentinel All, exactly the
records whose category equals the selection (case-sensitive) are retained,
a record of any other category contributes nothing to the buckets or the
totals, and the sentinel All retains every record. -/
theorem claim_C5 (g : Granularity) (sel : String) (df df2 : List AttemptRecord)
    (r : AttemptRecord) (hsel : sel ≠ "All") (hr : r.category ≠ sel) :
    apply_filter sel df = df.filter (fun x => x.category == sel)
    ∧ apply_filter "All" df = df
    ∧ apply_filter sel (df ++ r :: df2) = apply_filter sel (df ++ df2)
    ∧ dashboard_data g sel (df ++ r :: df2) = dashboard_data g sel (df ++ df2) := by
  have h1 : apply_filter sel df = df.filter (fun x => x.category == sel) := by
    unfold apply_filter
    rw [if_neg hsel]
  have h3 : apply_filter sel (df ++ r :: df2) = apply_filter sel (df ++ df2) := by
    unfold apply_filter
    rw [if_neg hsel, if_neg hsel]
    simp [List.filter_append, List.filter_cons, hr]
  have h4 : dashboard_data g sel (df ++ r :: df2) = dashboard_data g sel (df ++ df2) := by
    unfold dashboard_data
    rw [h3]
  exact ⟨h1, by unfold apply_filter; rw [if_pos rfl], h3, h4⟩

/-- Witness for claim C5 with selection bird and an excluded wild-animal
record. -/
theorem claim_C5_witness :
    apply_filter "bird" [] = List.filter (fun x => x.category == "bird") [] :=
  (claim_C5 .daily "bird" [] []
    { child_id := 1, animal_name := "Lion", category := "wild animal", attempt := 1,
      correct := 1, incorrect := 0, timestamp := 0, date := 0 }
    (by decide) (by decide)).1

/-- Claim C6: the trend frame is strictly ascending in its period key, with
no duplicate keys. -/
theorem claim_C6 (g : Granularity) (sel : String) (df : List AttemptRecord) :
    List.Pairwise (fun a b => a.time_period < b.time_period)
      (dashboard_data g sel df).trend_data
    ∧ ((dashboard_data g sel df).trend_data.map (fun b => b.time_period)).Nodup := by
  have hp : List.Pairwise (fun a b => a.time_period < b.time_period)
      (groupby_sum g (apply_filter sel df)) :=
    groupby_sum_pairwise_aux g (apply_filter sel df) [] List.Pairwise.nil
  refine ⟨hp, ?_⟩
  exact List.Pairwise.map (fun b => b.time_period)
    (fun (a b : TrendRow) (h : a.time_period < b.time_period) => Nat.ne_of_lt h) hp

/-- Claim C7: ensureInitialized is idempotent: on an absent file it creates
exactly the fixed header with zero rows; on any present file it changes
nothing and raises no error. -/
theorem claim_C7 (fs : FileState) (hdr : List String) (rows : List AttemptRecord) :
    ensure_results_file (ensure_results_file fs) = ensure_results_file fs
    ∧ ensure_results_file FileState.absent = FileState.wellFormed results_header []
    ∧ ensure_results_file (FileState.wellFormed hdr rows) = FileState.wellFormed hdr rows
    ∧ ensure_results_file FileState.malformed = FileState.malformed := by
  refine ⟨?_, rfl, rfl, rfl⟩
  cases fs <;> rfl

/-- Claim C8: on a malformed results file both the append and the load fail
with the storage-corruption error, which propagates to the caller; neither
returns an empty sequence nor writes anything. -/
theorem claim_C8 (r : AttemptRecord) :
    load_results FileState.malformed = Except.error StorageError.corruption
    ∧ save_to_csv r FileState.malformed = Except.error StorageError.corruption :=
  ⟨rfl, rfl⟩

/-- Claim C9: when recognition fails with either failure kind the
interaction reports the failure and ends with the store exactly as it
was; no record is written. -/
theorem claim_C9 (cid : Nat) (an cat : String) (ts : Nat) (fs : FileState)
    (k : RecognitionResult)
    (hk : k = RecognitionResult.unintelligible ∨ k = RecognitionResult.serviceUnavailable) :
    try_saying cid an cat k ts fs = (Except.ok fs, [UiMessage.recognitionFailed]) := by
  rcases hk with hk | hk <;> subst hk <;> rfl

/-- Witness for claim C9 on an unintelligible attempt against an absent
store. -/
theorem claim_C9_witness :
    try_saying 1 "Lion" "bird" RecognitionResult.unintelligible 0 FileState.absent
      = (Except.ok FileState.absent, [UiMessage.recognitionFailed]) :=
  claim_C9 1 "Lion" "bird" 0 FileState.absent RecognitionResult.unintelligible (Or.inl rfl)

/-- Claim C10: every record persisted through the animal pages carries one
of the five lowercase page-table category strings, and every non-All option
of the dashboard category selectbox is a category present in the stored
data, hence matches at least one stored record exactly. -/
theorem claim_C10 (cid : Nat) (an raw cat : String) (ts : Nat) (df : List AttemptRecord)
    (hcat : cat ∈ page_categories) :
    (recordAttempt cid an cat raw ts).category ∈ page_categories
    ∧ (∀ c ∈ filter_options df, c = "All" ∨ ∃ r ∈ df, r.category = c)
    ∧ (∀ (k : RecognitionResult) (hdr : List String) (rows : List AttemptRecord)
        (fs' : FileState),
        (try_saying cid an cat k ts (FileState.wellFormed hdr rows)).1 = Except.ok fs' →
        ∀ r ∈ rows_of fs', r ∈ rows ∨ r.category ∈ page_categories) := by
  refine ⟨hcat, ?_, ?_⟩
  · intro c hc
    rcases List.mem_cons.mp hc with h | h
    · left; exact h
    · right
      have hm := mem_pd_unique _ _ h
      rcases List.mem_map.mp hm with ⟨r, hr, hr'⟩
      exact ⟨r, hr, hr'⟩
  · intro k hdr rows fs' heq r hr
    cases k with
    | recognized raw' =>
      by_cases he : (pyLower raw').isEmpty
      · have hts : (try_saying cid an cat (.recognized raw') ts (.wellFormed hdr rows)).1
            = Except.ok (FileState.wellFormed hdr rows) := by
          simp only [try_saying, recognize_speech]
          rw [if_pos he]
        rw [hts] at heq
        have : fs' = FileState.wellFormed hdr rows := by
          injection heq with h'
          exact h'.symm
        subst this
        left
        exact hr
      · have hts : (try_saying cid an cat (.recognized raw') ts (.wellFormed hdr rows)).1
            = Except.ok (FileState.wellFormed hdr
                (rows ++ [make_record cid an cat (pyLower raw') ts])) := by
          simp only [try_saying, recognize_speech]
          rw [if_neg he]
          exact congrArg (fun e => e) (save_to_csv_wellFormed _ _ _)
        rw [hts] at heq
        have : fs' = FileState.wellFormed hdr
            (rows ++ [make_record cid an cat (pyLower raw') ts]) := by
          injection heq with h'
          exact h'.symm
        subst this
        rcases List.mem_append.mp hr with h' | h'
        · left; exact h'
        · right
          have : r = make_record cid an cat (pyLower raw') ts := by
            simpa using h'
          rw [this]
          exact hcat
    | unintelligible =>
      have : fs' = FileState.wellFormed hdr rows := by
        injection heq with h'
        exact h'.symm
      subst this
      left
      exact hr
    | serviceUnavailable =>
      have : fs' = FileState.wellFormed hdr rows := by
        injection heq with h'
        exact h'.symm
      subst this
      left
      exact hr

/-- Witness for claim C10 recording a bird-page attempt. -/
theorem claim_C10_witness :
    (recordAttempt 1 "Lion" "bird" "lion" 0).category ∈ page_categories :=
  (claim_C10 1 "Lion" "lion" "bird" 0 [] (by decide)).1

end TestMyStream
